import Mathlib

/-!
Verification development for the feature-preparation stage
(`src/run/prepare_data.py`) of the kaggle child-mind-institute
detect-sleep-states repository.

The pipeline is embedded shallowly:
* raw parquet rows become `RawRow` (series_id, step, anglez, enmo,
  timestamp string);
* `str.to_datetime("%Y-%m-%dT%H:%M:%S%z")` becomes `parseTimestamp`,
  which parses the exact `YYYY-MM-DDTHH:MM:SS±HHMM` layout; a failure
  anywhere aborts the whole load (`preprocess` returns `Except.error`),
  mirroring the strict column-wide cast;
* the fixed-constant z-score normalisation and the cyclic sin/cos
  features are computed over `ℚ`; the float sine/cosine applied by
  `to_coord` is kept symbolic in `Val` (`Val.sinv q` denotes
  `sin (2·π·q)`), with the real-number meaning given by `Val.toReal`,
  so the whole pipeline stays executable;
* `DataFrame.sort(by=["series_id", "timestamp"])` becomes a stable
  insertion sort under the lexicographic relation `rowLe`; the datetime
  sort key is the UTC instant `tsKey` (civil-days algorithm plus the
  parsed offset), exactly what polars compares after `to_datetime`;
* `group_by` on the sorted frame keeps intra-group row order, so a
  group of a series is `filter` on the sorted rows;
* the filesystem is a map `FS` from directory paths to series trees;
  `main` first removes the phase output directory, then resolves the
  source path from the phase, loads, preprocesses, sorts, and writes
  one directory per series containing one `.npy` file per feature.
-/

namespace PrepareData

/-- Normalisation constants from the source (`ANGLEZ_MEAN = -8.810476` …),
read as exact decimal rationals. -/
def ANGLEZ_MEAN : ℚ := -8810476 / 1000000

/-- `ANGLEZ_STD = 35.521877` in the source. -/
def ANGLEZ_STD : ℚ := 35521877 / 1000000

/-- `ENMO_MEAN = 0.041315` in the source. -/
def ENMO_MEAN : ℚ := 41315 / 1000000

/-- `ENMO_STD = 0.101829` in the source. -/
def ENMO_STD : ℚ := 101829 / 1000000

/-- `FEATURE_NAMES` from the source: the 8 channels written per series. -/
def FEATURE_NAMES : List String :=
  ["anglez", "enmo",
   "hour_sin", "hour_cos",
   "month_sin", "month_cos",
   "minute_sin", "minute_cos"]

/-- A raw input record, one sensor sample of the parquet file. -/
structure RawRow where
  series_id : String
  step : ℕ
  anglez : ℚ
  enmo : ℚ
  timestamp : String
deriving DecidableEq

/-- A parsed `YYYY-MM-DDTHH:MM:SS±HHMM` timestamp.  `offNeg` is the sign
of the UTC offset, `offHour`/`offMin` its magnitude. -/
structure DateTime where
  year : ℕ
  month : ℕ
  day : ℕ
  hour : ℕ
  minute : ℕ
  second : ℕ
  offNeg : Bool
  offHour : ℕ
  offMin : ℕ
deriving DecidableEq

/-- Value of a decimal digit character. -/
def digit (c : Char) : Option ℕ :=
  if c.isDigit then some (c.toNat - 48) else none

/-- Two-digit decimal field. -/
def digits2 (a b : Char) : Option ℕ := do
  let x ← digit a
  let y ← digit b
  pure (10 * x + y)

/-- Four-digit decimal field. -/
def digits4 (a b c d : Char) : Option ℕ := do
  let x ← digits2 a b
  let y ← digits2 c d
  pure (100 * x + y)

/-- Offset sign: `+` is a non-negative offset, `-` a negative one. -/
def offsetSign (c : Char) : Option Bool :=
  if c = '+' then some false else if c = '-' then some true else none

/-- Parse the exact `%Y-%m-%dT%H:%M:%S%z` layout used by the source:
`YYYY-MM-DDTHH:MM:SS±HHMM`, with in-range calendar fields.  Any other
string yields `none`. -/
def parseTimestamp (s : String) : Option DateTime :=
  match s.toList with
  | [y1, y2, y3, y4, c1, mo1, mo2, c2, d1, d2, ct,
     h1, h2, c3, mi1, mi2, c4, s1, s2, sg, o1, o2, o3, o4] =>
    if c1 = '-' ∧ c2 = '-' ∧ ct = 'T' ∧ c3 = ':' ∧ c4 = ':' then
      match digits4 y1 y2 y3 y4, digits2 mo1 mo2, digits2 d1 d2,
            digits2 h1 h2, digits2 mi1 mi2, digits2 s1 s2,
            offsetSign sg, digits2 o1 o2, digits2 o3 o4 with
      | some y, some mo, some d, some h, some mi, some se,
        some neg, some oh, some om =>
        if 1 ≤ mo ∧ mo ≤ 12 ∧ 1 ≤ d ∧ d ≤ 31 ∧
           h ≤ 23 ∧ mi ≤ 59 ∧ se ≤ 59 ∧ oh ≤ 23 ∧ om ≤ 59 then
          some ⟨y, mo, d, h, mi, se, neg, oh, om⟩
        else none
      | _, _, _, _, _, _, _, _, _ => none
    else none
  | _ => none

/-- Days since 1970-01-01 of a civil date (the Hinnant civil-days algorithm,
floor divisions). -/
def daysFromCivil (y : ℤ) (m d : ℕ) : ℤ :=
  let y2 : ℤ := if m ≤ 2 then y - 1 else y
  let era : ℤ := Int.fdiv y2 400
  let yoe : ℤ := y2 - era * 400
  let mp : ℤ := ((m : ℤ) + 9) % 12
  let doy : ℤ := Int.fdiv (153 * mp + 2) 5 + (d : ℤ) - 1
  let doe : ℤ := yoe * 365 + Int.fdiv yoe 4 - Int.fdiv yoe 100 + doy
  era * 146097 + doe - 719468

/-- Signed UTC offset in seconds. -/
def offsetSeconds (t : DateTime) : ℤ :=
  (if t.offNeg then -1 else 1) * ((t.offHour : ℤ) * 3600 + (t.offMin : ℤ) * 60)

/-- The UTC instant (seconds since the epoch) a parsed timestamp denotes;
this is the value polars stores after `to_datetime` and compares when
sorting by the timestamp column. -/
def tsKey (t : DateTime) : ℤ :=
  daysFromCivil (t.year : ℤ) t.month t.day * 86400
    + (t.hour : ℤ) * 3600 + (t.minute : ℤ) * 60 + (t.second : ℤ)
    - offsetSeconds t

/-- A record after the load/normalise step of `main`
(`select(series_id, anglez, enmo, timestamp)`). -/
structure Row where
  series_id : String
  anglez : ℚ
  enmo : ℚ
  timestamp : DateTime
deriving DecidableEq

/-- Errors of the preparation run: a timestamp failing the strict cast,
or a phase outside {train, test, dev}. -/
inductive PrepError where
  | parseError
  | invalidPhase
deriving DecidableEq

/-- `(pl.col("anglez") - ANGLEZ_MEAN) / ANGLEZ_STD` on one value. -/
def normalizeAnglez (a : ℚ) : ℚ := (a - ANGLEZ_MEAN) / ANGLEZ_STD

/-- `(pl.col("enmo") - ENMO_MEAN) / ENMO_STD` on one value. -/
def normalizeEnmo (e : ℚ) : ℚ := (e - ENMO_MEAN) / ENMO_STD

/-- One row of the `with_columns` + `select` preprocessing: parse the
timestamp, z-score anglez and enmo with the fixed constants. -/
def preprocessRow (r : RawRow) : Except PrepError Row :=
  match parseTimestamp r.timestamp with
  | none => Except.error PrepError.parseError
  | some t =>
    Except.ok ⟨r.series_id, normalizeAnglez r.anglez, normalizeEnmo r.enmo, t⟩

/-- The whole-column preprocessing: every row must parse; a single
failure fails the collect (strict cast), no row is skipped. -/
def preprocess : List RawRow → Except PrepError (List Row)
  | [] => Except.ok []
  | r :: rs =>
    match preprocessRow r, preprocess rs with
    | Except.ok row, Except.ok rows => Except.ok (row :: rows)
    | Except.error e, _ => Except.error e
    | _, Except.error e => Except.error e

/-- The comparator of `sort(by=["series_id", "timestamp"])`: primarily
the series id (lexicographic string order), secondarily the timestamp
instant. -/
def rowLe (a b : Row) : Prop :=
  a.series_id < b.series_id ∨
    (a.series_id = b.series_id ∧ tsKey a.timestamp ≤ tsKey b.timestamp)

instance : DecidableRel rowLe := fun a b => by
  unfold rowLe
  exact inferInstance

instance : IsTotal Row rowLe := by
  constructor
  intro a b
  rcases lt_trichotomy a.series_id b.series_id with h | h | h
  · exact Or.inl (Or.inl h)
  · rcases le_total (tsKey a.timestamp) (tsKey b.timestamp) with ht | ht
    · exact Or.inl (Or.inr ⟨h, ht⟩)
    · exact Or.inr (Or.inr ⟨h.symm, ht⟩)
  · exact Or.inr (Or.inl h)

instance : IsTrans Row rowLe := by
  constructor
  intro a b c hab hbc
  rcases hab with h1 | ⟨e1, t1⟩
  · rcases hbc with h2 | ⟨e2, t2⟩
    · exact Or.inl (h1.trans h2)
    · exact Or.inl (e2 ▸ h1)
  · rcases hbc with h2 | ⟨e2, t2⟩
    · exact Or.inl (e1 ▸ h2)
    · exact Or.inr ⟨e1.trans e2, t1.trans t2⟩

/-- The sort step of `main`: a stable sort under `rowLe`. -/
def sortRows (rows : List Row) : List Row := List.insertionSort rowLe rows

/-- A feature cell.  `num q` is the plain rational `q`; `sinv q` and
`cosv q` stand for `sin (2·π·q)` and `cos (2·π·q)`, keeping the
trigonometry of `to_coord` symbolic and the pipeline executable. -/
inductive Val where
  | num (q : ℚ)
  | sinv (q : ℚ)
  | cosv (q : ℚ)
deriving DecidableEq

/-- Real-number meaning of a feature cell. -/
noncomputable def Val.toReal : Val → ℝ
  | Val.num q => (q : ℝ)
  | Val.sinv q => Real.sin (2 * Real.pi * (q : ℝ))
  | Val.cosv q => Real.cos (2 * Real.pi * (q : ℝ))

/-- Width of the element type a written column carries. -/
inductive DType where
  | f32
  | f64
deriving DecidableEq

/-- The dtype a feature cell is stored with, read off the polars typing
of the expressions that produce it.  A `num` cell comes from the
`anglez`/`enmo` columns, Float32 per `SERIES_SCHEMA`, and polars keeps
the column dtype when a Float32 column meets a Python float literal in
`(col - MEAN) / STD`, so `num` cells are 32-bit.  A `sinv`/`cosv` cell
comes from `to_coord`, where the integer component column is multiplied
by the 64-bit literal `2 * np.pi`, promoting the expression to Float64,
and `.sin()`/`.cos()` keep Float64, so those cells are 64-bit.
`np.save` writes each column with its dtype unchanged. -/
def Val.dtype : Val → DType
  | Val.num _ => DType.f32
  | Val.sinv _ => DType.f64
  | Val.cosv _ => DType.f64

/-- `to_coord` from the source: `rad = 2π·(x % max_)/max_` and the two
columns `{name}_sin = sin rad`, `{name}_cos = cos rad`.  The modulo is
taken on the raw integer component before scaling. -/
def to_coord (x : ℕ) (max_ : ℕ) (name : String) : List (String × Val) :=
  [(name ++ "_sin", Val.sinv (((x % max_ : ℕ) : ℚ) / (max_ : ℚ))),
   (name ++ "_cos", Val.cosv (((x % max_ : ℕ) : ℚ) / (max_ : ℚ)))]

/-- The feature columns `add_feature` attaches to one row: the two
normalised channels plus the three sin/cos pairs for hour (period 24),
month (period 12) and minute (period 60). -/
def featureColumns (r : Row) : List (String × Val) :=
  [("anglez", Val.num r.anglez), ("enmo", Val.num r.enmo)]
    ++ to_coord r.timestamp.hour 24 "hour"
    ++ to_coord r.timestamp.month 12 "month"
    ++ to_coord r.timestamp.minute 60 "minute"

/-- The cell of channel `c` for row `r` (`get_column` applied to one
row); channels outside the schema default to `num 0`, a case never
reached for names in `FEATURE_NAMES`. -/
def colVal (r : Row) (c : String) : Val :=
  ((featureColumns r).lookup c).getD (Val.num 0)

/-- `get_column(col_name)` of a series frame: the column as a flat
array, one cell per row, in row order. -/
def get_column (rows : List Row) (c : String) : List Val :=
  rows.map (fun r => colVal r c)

/-- `save_each_series`: one `{col_name}.npy` file per requested column,
holding that column of the series frame. -/
def save_each_series (rows : List Row) (columns : List String) :
    List (String × List Val) :=
  columns.map (fun c => (c ++ ".npy", get_column rows c))

/-- The distinct series ids of a frame, in first-appearance order
(the groups of `group_by`). -/
def seriesIds (rows : List Row) : List String :=
  (rows.map (fun r => r.series_id)).dedup

/-- The rows of one `group_by("series_id")` group: polars keeps the
row order of the frame inside each group, so on the sorted frame this is a
filter. -/
def seriesRows (rows : List Row) (sid : String) : List Row :=
  rows.filter (fun r => r.series_id == sid)

/-- A written phase tree: one directory per series id, each holding the
named `.npy` files. -/
abbrev SeriesTree := List (String × List (String × List Val))

/-- The save loop of `main` over an (already sorted) frame. -/
def buildOutput (rows : List Row) : SeriesTree :=
  (seriesIds rows).map
    (fun sid => (sid, save_each_series (seriesRows rows sid) FEATURE_NAMES))

/-- The run configuration: the phase and the two directory roots of
`cfg.dir`. -/
structure Cfg where
  phase : String
  data_dir : String
  processed_dir : String
deriving DecidableEq

/-- `processed_dir / cfg.phase`: the output directory of the phase. -/
def processedPath (cfg : Cfg) : String :=
  cfg.processed_dir ++ "/" ++ cfg.phase

/-- The parquet path `main` scans: `{data_dir}/{phase}_series.parquet`
for train and test, `{processed_dir}/{phase}_series.parquet` for dev,
and no path at all (the `ValueError` branch) otherwise. -/
def sourcePath (cfg : Cfg) : Option String :=
  if cfg.phase = "train" ∨ cfg.phase = "test" then
    some (cfg.data_dir ++ "/" ++ cfg.phase ++ "_series.parquet")
  else if cfg.phase = "dev" then
    some (cfg.processed_dir ++ "/" ++ cfg.phase ++ "_series.parquet")
  else none

/-- The filesystem, restricted to what the run touches: a map from
directory paths to phase trees. -/
abbrev FS := String → Option SeriesTree

/-- `shutil.rmtree`: drop the tree at `p`. -/
def removeDir (fs : FS) (p : String) : FS :=
  fun q => if q = p then none else fs q

/-- Writing a whole phase tree at `p`. -/
def writeDir (fs : FS) (p : String) (t : SeriesTree) : FS :=
  fun q => if q = p then some t else fs q

/-- `main`: first remove the phase output directory (this happens before
the phase is validated), then resolve the source path, load and
preprocess the rows, sort, and write one directory per series.  `read`
models the parquet contents at each path. -/
def runPrepare (cfg : Cfg) (read : String → List RawRow) (fs : FS) :
    Except PrepError SeriesTree × FS :=
  let fs1 : FS := removeDir fs (processedPath cfg)
  match sourcePath cfg with
  | none => (Except.error PrepError.invalidPhase, fs1)
  | some p =>
    match preprocess (read p) with
    | Except.error e => (Except.error e, fs1)
    | Except.ok rows =>
      (Except.ok (buildOutput (sortRows rows)),
       writeDir fs1 (processedPath cfg) (buildOutput (sortRows rows)))

/-- Chronological order on preprocessed rows: comparison of the
timestamp instants. -/
def tsLe (a b : Row) : Prop := tsKey a.timestamp ≤ tsKey b.timestamp

/-! ### Concrete inputs used by the claim witnesses -/

def rawW2 : RawRow := ⟨"S1", 0, 1, 2, "2021-01-01T00:00:00+0000"⟩

def rowW2 : Row :=
  ⟨"S1", normalizeAnglez 1, normalizeEnmo 2, ⟨2021, 1, 1, 0, 0, 0, false, 0, 0⟩⟩

def cfgFoo : Cfg := ⟨"foo", "data", "proc"⟩

def fsFoo : FS := fun q => if q = "proc/foo" then some [] else none

def rawC7 : RawRow := ⟨"S1", 0, 0, 0, "2021-01-01T00:00:00+0000"⟩

def rowC7 : Row :=
  ⟨"S1", normalizeAnglez 0, normalizeEnmo 0, ⟨2021, 1, 1, 0, 0, 0, false, 0, 0⟩⟩

def rawBad : RawRow := ⟨"S1", 0, 0, 0, "not-a-timestamp"⟩

def rawsW1 : List RawRow :=
  [⟨"S1", 0, 0, 0, "2021-01-01T01:00:00+0000"⟩,
   ⟨"S1", 1, 1, 1, "2021-01-01T00:00:00+0000"⟩]

def rowsW1 : List Row :=
  [⟨"S1", normalizeAnglez 0, normalizeEnmo 0, ⟨2021, 1, 1, 1, 0, 0, false, 0, 0⟩⟩,
   ⟨"S1", normalizeAnglez 1, normalizeEnmo 1, ⟨2021, 1, 1, 0, 0, 0, false, 0, 0⟩⟩]

def cfgW4 : Cfg := ⟨"train", "d", "p"⟩

def pW4 : String := "d" ++ "/" ++ "train" ++ "_series.parquet"

def rawsW4 : List RawRow := [⟨"S1", 0, 0, 0, "2021-01-01T00:00:00+0000"⟩]

def readW4 : String → List RawRow := fun _ => rawsW4

def rowsW4 : List Row :=
  [⟨"S1", normalizeAnglez 0, normalizeEnmo 0, ⟨2021, 1, 1, 0, 0, 0, false, 0, 0⟩⟩]

/-! ### Structural lemmas shared by the claim theorems -/

theorem preprocessRow_ok_series_id {r : RawRow} {row : Row}
    (h : preprocessRow r = Except.ok row) : row.series_id = r.series_id := by
  unfold preprocessRow at h
  cases hp : parseTimestamp r.timestamp with
  | none => rw [hp] at h; cases h
  | some t => rw [hp] at h; cases h; rfl

theorem preprocessRow_error_eq {r : RawRow} {e : PrepError}
    (h : preprocessRow r = Except.error e) : e = PrepError.parseError := by
  unfold preprocessRow at h
  cases hp : parseTimestamp r.timestamp with
  | none => rw [hp] at h; cases h; rfl
  | some t => rw [hp] at h; cases h

theorem preprocess_forall2 : ∀ {raw : List RawRow} {rows : List Row},
    preprocess raw = Except.ok rows →
    List.Forall₂ (fun a b => preprocessRow a = Except.ok b) raw rows := by
  intro raw
  induction raw with
  | nil =>
    intro rows h
    simp only [preprocess] at h
    cases h
    exact List.Forall₂.nil
  | cons r rs ih =>
    intro rows h
    unfold preprocess at h
    cases h1 : preprocessRow r with
    | error e =>
      cases h2 : preprocess rs with
      | error e2 => rw [h1, h2] at h; cases h
      | ok rows2 => rw [h1, h2] at h; cases h
    | ok row =>
      cases h2 : preprocess rs with
      | error e => rw [h1, h2] at h; cases h
      | ok rows2 =>
        rw [h1, h2] at h
        cases h
        exact List.Forall₂.cons h1 (ih h2)

theorem preprocess_error_of_bad : ∀ {raw : List RawRow},
    (∃ r ∈ raw, parseTimestamp r.timestamp = none) →
    preprocess raw = Except.error PrepError.parseError := by
  intro raw
  induction raw with
  | nil =>
    rintro ⟨r, hr, _⟩
    cases hr
  | cons a rs ih =>
    rintro ⟨r, hr, hbad⟩
    rcases List.mem_cons.mp hr with rfl | hr2
    · have h1 : preprocessRow r = Except.error PrepError.parseError := by
        unfold preprocessRow
        rw [hbad]
      unfold preprocess
      rw [h1]
      cases h2 : preprocess rs <;> rfl
    · have h2 := ih ⟨r, hr2, hbad⟩
      unfold preprocess
      rw [h2]
      cases h1 : preprocessRow a with
      | error e => rw [preprocessRow_error_eq h1]
      | ok row => rfl

theorem filter_length_forall2 {raw : List RawRow} {rows : List Row}
    (h : List.Forall₂ (fun a b => preprocessRow a = Except.ok b) raw rows)
    (sid : String) :
    (rows.filter (fun r => r.series_id == sid)).length
      = (raw.filter (fun r => r.series_id == sid)).length := by
  induction h with
  | nil => rfl
  | cons hab htl ih =>
    rename_i a b as bs
    have hsid : b.series_id = a.series_id := preprocessRow_ok_series_id hab
    by_cases hc : a.series_id = sid
    · simp [List.filter_cons, hsid, hc, ih]
    · simp [List.filter_cons, hsid, hc, ih]

theorem sortRows_sorted (rows : List Row) : List.Sorted rowLe (sortRows rows) :=
  List.sorted_insertionSort rowLe rows

theorem sortRows_perm (rows : List Row) : List.Perm (sortRows rows) rows :=
  List.perm_insertionSort rowLe rows

theorem seriesRows_perm (rows : List Row) (sid : String) :
    List.Perm (seriesRows (sortRows rows) sid)
      (rows.filter (fun r => r.series_id == sid)) :=
  (sortRows_perm rows).filter _

theorem seriesRows_sorted_ts (rows : List Row) (sid : String) :
    List.Sorted tsLe (seriesRows (sortRows rows) sid) := by
  have h : List.Sorted rowLe (seriesRows (sortRows rows) sid) :=
    (sortRows_sorted rows).filter _
  refine List.Pairwise.imp_of_mem ?_ h
  intro a b ha hb hab
  have ha2 : a.series_id = sid := by
    have := (List.mem_filter.mp ha).2
    simpa using this
  have hb2 : b.series_id = sid := by
    have := (List.mem_filter.mp hb).2
    simpa using this
  rcases hab with hlt | ⟨_, hts⟩
  · rw [ha2, hb2] at hlt
    exact absurd hlt (lt_irrefl sid)
  · exact hts

theorem lookup_map_self {β : Type} (f : String → β) :
    ∀ (xs : List String) (s : String), s ∈ xs →
      (xs.map (fun x => (x, f x))).lookup s = some (f s) := by
  intro xs
  induction xs with
  | nil => intro s h; cases h
  | cons x xs ih =>
    intro s hs
    by_cases h : s = x
    · subst h
      simp [List.lookup]
    · rcases List.mem_cons.mp hs with rfl | hs2
      · exact absurd rfl h
      · have hbeq : (s == x) = false := beq_eq_false_iff_ne.mpr h
        simpa [List.lookup, hbeq] using ih s hs2

theorem removeDir_idem (fs : FS) (p : String) :
    removeDir (removeDir fs p) p = removeDir fs p := by
  funext q
  unfold removeDir
  by_cases h : q = p <;> simp [h]

theorem removeDir_writeDir (fs : FS) (p : String) (t : SeriesTree) :
    removeDir (writeDir fs p t) p = removeDir fs p := by
  funext q
  unfold removeDir writeDir
  by_cases h : q = p <;> simp [h]

/-! ### The claims -/

/-- Claim C1: all records are sorted primarily by series_id and
secondarily by timestamp ascending before partitioning; for every
series_id the per-series arrays have length equal to the input
sample count of that series and are aligned index-for-index with the chronologically
sorted rows of that series (the group is a permutation of the
series input rows, sorted by timestamp, and each array is its index-wise
image). -/
theorem claim1_sort_partition_alignment (raw : List RawRow) (rows : List Row)
    (h : preprocess raw = Except.ok rows) (sid : String) :
    List.Sorted rowLe (sortRows rows)
    ∧ List.Perm (sortRows rows) rows
    ∧ List.Perm (seriesRows (sortRows rows) sid)
        (rows.filter (fun r => r.series_id == sid))
    ∧ List.Sorted tsLe (seriesRows (sortRows rows) sid)
    ∧ (∀ c ∈ FEATURE_NAMES,
        (get_column (seriesRows (sortRows rows) sid) c).length
          = (raw.filter (fun r => r.series_id == sid)).length)
    ∧ (∀ c ∈ FEATURE_NAMES,
        get_column (seriesRows (sortRows rows) sid) c
          = (seriesRows (sortRows rows) sid).map (fun r => colVal r c)) := by
  refine ⟨sortRows_sorted rows, sortRows_perm rows, seriesRows_perm rows sid,
    seriesRows_sorted_ts rows sid, ?_, ?_⟩
  · intro c hc
    have h1 : (get_column (seriesRows (sortRows rows) sid) c).length
        = (seriesRows (sortRows rows) sid).length := List.length_map _ _
    rw [h1, (seriesRows_perm rows sid).length_eq,
      filter_length_forall2 (preprocess_forall2 h) sid]
  · intro c hc
    rfl

theorem claim1_witness :
    preprocess rawsW1 = Except.ok rowsW1
    ∧ (List.Sorted rowLe (sortRows rowsW1)
      ∧ List.Perm (sortRows rowsW1) rowsW1
      ∧ List.Perm (seriesRows (sortRows rowsW1) "S1")
          (rowsW1.filter (fun r => r.series_id == "S1"))
      ∧ List.Sorted tsLe (seriesRows (sortRows rowsW1) "S1")
      ∧ (∀ c ∈ FEATURE_NAMES,
          (get_column (seriesRows (sortRows rowsW1) "S1") c).length
            = (rawsW1.filter (fun r => r.series_id == "S1")).length)
      ∧ (∀ c ∈ FEATURE_NAMES,
          get_column (seriesRows (sortRows rowsW1) "S1") c
            = (seriesRows (sortRows rowsW1) "S1").map (fun r => colVal r c))) :=
  ⟨rfl, claim1_sort_partition_alignment rawsW1 rowsW1 rfl "S1"⟩

/-- Claim C2: the Normalize step replaces anglez by
`(anglez - (-8.810476)) / 35.521877` and enmo by
`(enmo - 0.041315) / 0.101829`, elementwise with exactly these fixed
constants, with no clipping, so any value can be produced. -/
theorem claim2_normalize (r : RawRow) (row : Row)
    (h : preprocessRow r = Except.ok row) :
    row.anglez = (r.anglez - (-8810476 / 1000000)) / (35521877 / 1000000)
    ∧ row.enmo = (r.enmo - 41315 / 1000000) / (101829 / 1000000)
    ∧ (∀ y : ℚ, ∃ a : ℚ, normalizeAnglez a = y)
    ∧ (∀ y : ℚ, ∃ e : ℚ, normalizeEnmo e = y) := by
  unfold preprocessRow at h
  cases hp : parseTimestamp r.timestamp with
  | none => rw [hp] at h; cases h
  | some t =>
    rw [hp] at h
    cases h
    refine ⟨rfl, rfl, ?_, ?_⟩
    · intro y
      refine ⟨y * ANGLEZ_STD + ANGLEZ_MEAN, ?_⟩
      unfold normalizeAnglez ANGLEZ_STD ANGLEZ_MEAN
      norm_num
    · intro y
      refine ⟨y * ENMO_STD + ENMO_MEAN, ?_⟩
      unfold normalizeEnmo ENMO_STD ENMO_MEAN
      norm_num

theorem claim2_witness :
    preprocessRow rawW2 = Except.ok rowW2
    ∧ (rowW2.anglez = (rawW2.anglez - (-8810476 / 1000000)) / (35521877 / 1000000)
      ∧ rowW2.enmo = (rawW2.enmo - 41315 / 1000000) / (101829 / 1000000)
      ∧ (∀ y : ℚ, ∃ a : ℚ, normalizeAnglez a = y)
      ∧ (∀ y : ℚ, ∃ e : ℚ, normalizeEnmo e = y)) :=
  ⟨rfl, claim2_normalize rawW2 rowW2 rfl⟩

/-- Claim C3: for each periodic component (hour/24, month/12, minute/60)
the encoder computes the angle `2π·(component mod period)/period`, the
modulo applied to the raw integer before scaling, and emits exactly the
two channels sine(angle) and cosine(angle); the full channel list is
the 8 names of `FEATURE_NAMES`. -/
theorem claim3_cyclical_encode (r : Row) :
    ((to_coord r.timestamp.hour 24 "hour").map Prod.fst
        = ["hour_sin", "hour_cos"]
      ∧ (to_coord r.timestamp.hour 24 "hour").map (fun kv => kv.2.toReal)
        = [Real.sin (2 * Real.pi * ((r.timestamp.hour % 24 : ℕ) : ℝ) / 24),
           Real.cos (2 * Real.pi * ((r.timestamp.hour % 24 : ℕ) : ℝ) / 24)])
    ∧ ((to_coord r.timestamp.month 12 "month").map Prod.fst
        = ["month_sin", "month_cos"]
      ∧ (to_coord r.timestamp.month 12 "month").map (fun kv => kv.2.toReal)
        = [Real.sin (2 * Real.pi * ((r.timestamp.month % 12 : ℕ) : ℝ) / 12),
           Real.cos (2 * Real.pi * ((r.timestamp.month % 12 : ℕ) : ℝ) / 12)])
    ∧ ((to_coord r.timestamp.minute 60 "minute").map Prod.fst
        = ["minute_sin", "minute_cos"]
      ∧ (to_coord r.timestamp.minute 60 "minute").map (fun kv => kv.2.toReal)
        = [Real.sin (2 * Real.pi * ((r.timestamp.minute % 60 : ℕ) : ℝ) / 60),
           Real.cos (2 * Real.pi * ((r.timestamp.minute % 60 : ℕ) : ℝ) / 60)])
    ∧ (featureColumns r).map Prod.fst = FEATURE_NAMES := by
  refine ⟨⟨rfl, ?_⟩, ⟨rfl, ?_⟩, ⟨rfl, ?_⟩, rfl⟩ <;>
  · simp only [to_coord, Val.toReal, List.map_cons, List.map_nil,
      List.cons.injEq, and_true]
    constructor <;> · congr 1; push_cast; ring

/-- Claim C4 counterexample: in a successful concrete run, the written
series directory contains the file `hour_sin.npy`, and its cell carries
dtype Float64, not Float32: the integer hour column is promoted by the
64-bit `2 * np.pi` literal in `to_coord` and `np.save` keeps that
dtype, refuting "each file is a flat array of 32-bit floats". -/
theorem claim4_counterexample :
    (runPrepare cfgW4 readW4 (fun _ => none)).2 (processedPath cfgW4)
        = some (buildOutput (sortRows rowsW4))
    ∧ (buildOutput (sortRows rowsW4)).lookup "S1"
        = some (save_each_series (seriesRows (sortRows rowsW4) "S1")
            FEATURE_NAMES)
    ∧ (save_each_series (seriesRows (sortRows rowsW4) "S1")
          FEATURE_NAMES).lookup "hour_sin.npy"
        = some [Val.sinv (((0 % 24 : ℕ) : ℚ) / 24)]
    ∧ Val.dtype (Val.sinv (((0 % 24 : ℕ) : ℚ) / 24)) = DType.f64
    ∧ Val.dtype (Val.sinv (((0 % 24 : ℕ) : ℚ) / 24)) ≠ DType.f32 := by
  refine ⟨rfl, rfl, rfl, rfl, ?_⟩
  intro h
  cases h

/-- Claim C4 (amended): a successful run writes, at
`{processed_dir}/{phase}` (the phase output root), one directory per
input series_id; each series directory holds exactly the 8 files
`{channel}.npy` for the 8 channel names of `FEATURE_NAMES`, and each
file is a flat array whose length is the sample count of that series,
its rows in chronological order.  The `anglez` and `enmo` files hold
32-bit floats (the Float32 input columns survive the fixed-constant
arithmetic), but the six cyclical sin/cos files hold 64-bit floats (the
integer time component is promoted by the 64-bit `2 * np.pi` literal),
so not every file is 32-bit. -/
theorem claim4_output_tree (cfg : Cfg) (read : String → List RawRow) (fs : FS)
    (p : String) (rows : List Row) (sid : String)
    (hp : sourcePath cfg = some p)
    (hok : preprocess (read p) = Except.ok rows)
    (hsid : ∃ r ∈ read p, r.series_id = sid) :
    processedPath cfg = cfg.processed_dir ++ "/" ++ cfg.phase
    ∧ (runPrepare cfg read fs).2 (processedPath cfg)
        = some (buildOutput (sortRows rows))
    ∧ (buildOutput (sortRows rows)).lookup sid
        = some (save_each_series (seriesRows (sortRows rows) sid) FEATURE_NAMES)
    ∧ (save_each_series (seriesRows (sortRows rows) sid) FEATURE_NAMES).map
        Prod.fst = FEATURE_NAMES.map (fun c => c ++ ".npy")
    ∧ FEATURE_NAMES = ["anglez", "enmo", "hour_sin", "hour_cos",
        "month_sin", "month_cos", "minute_sin", "minute_cos"]
    ∧ (∀ ent ∈ save_each_series (seriesRows (sortRows rows) sid) FEATURE_NAMES,
        ent.2.length = ((read p).filter (fun r => r.series_id == sid)).length)
    ∧ List.Sorted tsLe (seriesRows (sortRows rows) sid)
    ∧ (∀ v ∈ get_column (seriesRows (sortRows rows) sid) "anglez",
        Val.dtype v = DType.f32)
    ∧ (∀ v ∈ get_column (seriesRows (sortRows rows) sid) "enmo",
        Val.dtype v = DType.f32)
    ∧ (∀ c ∈ ["hour_sin", "hour_cos", "month_sin", "month_cos",
          "minute_sin", "minute_cos"],
        ∀ v ∈ get_column (seriesRows (sortRows rows) sid) c,
          Val.dtype v = DType.f64) := by
  refine ⟨rfl, ?_, ?_, ?_, rfl, ?_, seriesRows_sorted_ts rows sid,
    ?_, ?_, ?_⟩
  · simp only [runPrepare, hp, hok]
    simp [writeDir]
  · have hrow : ∃ row ∈ rows, row.series_id = sid := by
      rcases hsid with ⟨r, hr, hrsid⟩
      have hmemf : r ∈ (read p).filter (fun q => q.series_id == sid) := by
        rw [List.mem_filter]
        exact ⟨hr, by simp [hrsid]⟩
      have hpos : 0 < ((read p).filter (fun q => q.series_id == sid)).length :=
        List.length_pos_of_mem hmemf
      rw [← filter_length_forall2 (preprocess_forall2 hok) sid] at hpos
      rcases List.exists_mem_of_length_pos hpos with ⟨row, hrowmem⟩
      have hmf := List.mem_filter.mp hrowmem
      exact ⟨row, hmf.1, by simpa using hmf.2⟩
    rcases hrow with ⟨row, hrowmem, hrowsid⟩
    have hsmem : sid ∈ seriesIds (sortRows rows) := by
      unfold seriesIds
      apply List.mem_dedup.mpr
      apply List.mem_map.mpr
      exact ⟨row, (sortRows_perm rows).mem_iff.mpr hrowmem, hrowsid⟩
    unfold buildOutput
    exact lookup_map_self _ _ sid hsmem
  · simp [save_each_series, List.map_map]
  · have hlen : ∀ c : String,
        (get_column (seriesRows (sortRows rows) sid) c).length
          = ((read p).filter (fun r => r.series_id == sid)).length := by
      intro c
      have h1 : (get_column (seriesRows (sortRows rows) sid) c).length
          = (seriesRows (sortRows rows) sid).length := List.length_map _ _
      rw [h1, (seriesRows_perm rows sid).length_eq,
        filter_length_forall2 (preprocess_forall2 hok) sid]
    intro ent hent
    simp only [save_each_series, List.mem_map] at hent
    rcases hent with ⟨c, hc, rfl⟩
    exact hlen c
  · intro v hv
    rcases List.mem_map.mp hv with ⟨r, hr, rfl⟩
    rfl
  · intro v hv
    rcases List.mem_map.mp hv with ⟨r, hr, rfl⟩
    rfl
  · intro c hc v hv
    rcases List.mem_map.mp hv with ⟨r, hr, rfl⟩
    simp only [List.mem_cons, List.not_mem_nil, or_false] at hc
    rcases hc with rfl | rfl | rfl | rfl | rfl | rfl <;> rfl

theorem claim4_witness :
    processedPath cfgW4 = cfgW4.processed_dir ++ "/" ++ cfgW4.phase
    ∧ (runPrepare cfgW4 readW4 (fun _ => none)).2 (processedPath cfgW4)
        = some (buildOutput (sortRows rowsW4))
    ∧ (buildOutput (sortRows rowsW4)).lookup "S1"
        = some (save_each_series (seriesRows (sortRows rowsW4) "S1")
            FEATURE_NAMES)
    ∧ (save_each_series (seriesRows (sortRows rowsW4) "S1") FEATURE_NAMES).map
        Prod.fst = FEATURE_NAMES.map (fun c => c ++ ".npy")
    ∧ FEATURE_NAMES = ["anglez", "enmo", "hour_sin", "hour_cos",
        "month_sin", "month_cos", "minute_sin", "minute_cos"]
    ∧ (∀ ent ∈ save_each_series (seriesRows (sortRows rowsW4) "S1")
          FEATURE_NAMES,
        ent.2.length
          = ((readW4 pW4).filter (fun r => r.series_id == "S1")).length)
    ∧ List.Sorted tsLe (seriesRows (sortRows rowsW4) "S1")
    ∧ (∀ v ∈ get_column (seriesRows (sortRows rowsW4) "S1") "anglez",
        Val.dtype v = DType.f32)
    ∧ (∀ v ∈ get_column (seriesRows (sortRows rowsW4) "S1") "enmo",
        Val.dtype v = DType.f32)
    ∧ (∀ c ∈ ["hour_sin", "hour_cos", "month_sin", "month_cos",
          "minute_sin", "minute_cos"],
        ∀ v ∈ get_column (seriesRows (sortRows rowsW4) "S1") c,
          Val.dtype v = DType.f64) :=
  claim4_output_tree cfgW4 readW4 (fun _ => none) pW4 rowsW4 "S1" rfl rfl
    ⟨⟨"S1", 0, 0, 0, "2021-01-01T00:00:00+0000"⟩, List.mem_singleton.mpr rfl,
      rfl⟩

/-- Claim C5 counterexample: with the invalid phase "foo" and an
existing phase output directory, the run does fail with the invalid
phase error, but it deletes that directory first: the filesystem is
changed, refuting "performing no filesystem writes or deletions". -/
theorem claim5_counterexample :
    (runPrepare cfgFoo (fun _ => []) fsFoo).1
        = Except.error PrepError.invalidPhase
    ∧ fsFoo (processedPath cfgFoo) = some []
    ∧ (runPrepare cfgFoo (fun _ => []) fsFoo).2 (processedPath cfgFoo)
        = none := ⟨rfl, rfl, rfl⟩

/-- Claim C5 (amended): for every phase outside {train, test, dev} the
run fails with the invalid-phase error, never reads the input, and
writes nothing; but before the phase check it removes the
phase output directory, so the net filesystem effect is exactly that one
deletion. -/
theorem claim5_invalid_phase (cfg : Cfg) (read read2 : String → List RawRow)
    (fs : FS) (h1 : cfg.phase ≠ "train") (h2 : cfg.phase ≠ "test")
    (h3 : cfg.phase ≠ "dev") :
    (runPrepare cfg read fs).1 = Except.error PrepError.invalidPhase
    ∧ (runPrepare cfg read fs).2 = removeDir fs (processedPath cfg)
    ∧ runPrepare cfg read fs = runPrepare cfg read2 fs
    ∧ ∀ q, q ≠ processedPath cfg → (runPrepare cfg read fs).2 q = fs q := by
  have hsp : sourcePath cfg = none := by
    unfold sourcePath
    rw [if_neg, if_neg h3]
    rintro (h | h)
    · exact h1 h
    · exact h2 h
  refine ⟨?_, ?_, ?_, ?_⟩
  · unfold runPrepare
    rw [hsp]
  · unfold runPrepare
    rw [hsp]
  · unfold runPrepare
    rw [hsp]
  · intro q hq
    unfold runPrepare
    rw [hsp]
    simp only [removeDir]
    rw [if_neg hq]

theorem claim5_witness :
    (runPrepare ⟨"foo2", "d", "p"⟩ (fun _ => []) (fun _ => none)).1
        = Except.error PrepError.invalidPhase
    ∧ (runPrepare ⟨"foo2", "d", "p"⟩ (fun _ => []) (fun _ => none)).2
        = removeDir (fun _ => none) (processedPath ⟨"foo2", "d", "p"⟩)
    ∧ runPrepare ⟨"foo2", "d", "p"⟩ (fun _ => []) (fun _ => none)
        = runPrepare ⟨"foo2", "d", "p"⟩ (fun _ => [rawW2]) (fun _ => none)
    ∧ ∀ q, q ≠ processedPath ⟨"foo2", "d", "p"⟩ →
        (runPrepare ⟨"foo2", "d", "p"⟩ (fun _ => []) (fun _ => none)).2 q
          = (fun _ => (none : Option SeriesTree)) q :=
  claim5_invalid_phase ⟨"foo2", "d", "p"⟩ (fun _ => []) (fun _ => [rawW2])
    (fun _ => none) (by decide) (by decide) (by decide)

/-- Claim C6: a second run with identical input and configuration
produces the identical result and filesystem; and the
final content of the phase directory is independent of whatever was there before (destructive
clean rebuild, not a merge). -/
theorem claim6_idempotent (cfg : Cfg) (read : String → List RawRow) (fs : FS) :
    (runPrepare cfg read ((runPrepare cfg read fs).2)).2
        = (runPrepare cfg read fs).2
    ∧ (runPrepare cfg read ((runPrepare cfg read fs).2)).1
        = (runPrepare cfg read fs).1
    ∧ ∀ fs2 : FS,
        (runPrepare cfg read fs).2 (processedPath cfg)
          = (runPrepare cfg read fs2).2 (processedPath cfg) := by
  cases hsp : sourcePath cfg with
  | none =>
    simp only [runPrepare, hsp]
    refine ⟨removeDir_idem fs (processedPath cfg), trivial, ?_⟩
    intro fs2
    simp [removeDir]
  | some p =>
    cases hpp : preprocess (read p) with
    | error e =>
      simp only [runPrepare, hsp, hpp]
      refine ⟨removeDir_idem fs (processedPath cfg), trivial, ?_⟩
      intro fs2
      simp [removeDir]
    | ok rows =>
      simp only [runPrepare, hsp, hpp]
      refine ⟨?_, trivial, ?_⟩
      · rw [removeDir_writeDir, removeDir_idem]
      · intro fs2
        simp [writeDir]

/-- Claim C7: the example row (series S1, anglez 0, enmo 0, timestamp
2021-01-01T00:00:00+0000) yields anglez ≈ 0.2481, enmo ≈ -0.4058,
hour_sin 0, hour_cos 1, month_sin 1/2 (≈ 0.5), month_cos ≈ 0.866,
minute_sin 0, minute_cos 1. -/
theorem claim7_example :
    preprocessRow rawC7 = Except.ok rowC7
    ∧ |rowC7.anglez - 2481 / 10000| < 1 / 1000
    ∧ |rowC7.enmo - (-4058 / 10000)| < 1 / 1000
    ∧ (colVal rowC7 "hour_sin").toReal = 0
    ∧ (colVal rowC7 "hour_cos").toReal = 1
    ∧ (colVal rowC7 "month_sin").toReal = 1 / 2
    ∧ |(colVal rowC7 "month_cos").toReal - 866 / 1000| < 1 / 1000
    ∧ (colVal rowC7 "minute_sin").toReal = 0
    ∧ (colVal rowC7 "minute_cos").toReal = 1 := by
  have hq0 : (((0 % 24 : ℕ) : ℚ) / 24) = 0 := by norm_num
  have hq1 : (((1 % 12 : ℕ) : ℚ) / 12) = 1 / 12 := by norm_num
  have hq2 : (((0 % 60 : ℕ) : ℚ) / 60) = 0 := by norm_num
  have hhs : colVal rowC7 "hour_sin" = Val.sinv 0 := by
    have h : colVal rowC7 "hour_sin" = Val.sinv (((0 % 24 : ℕ) : ℚ) / 24) := rfl
    rw [h, hq0]
  have hhc : colVal rowC7 "hour_cos" = Val.cosv 0 := by
    have h : colVal rowC7 "hour_cos" = Val.cosv (((0 % 24 : ℕ) : ℚ) / 24) := rfl
    rw [h, hq0]
  have hms : colVal rowC7 "month_sin" = Val.sinv (1 / 12) := by
    have h : colVal rowC7 "month_sin"
        = Val.sinv (((1 % 12 : ℕ) : ℚ) / 12) := rfl
    rw [h, hq1]
  have hmc : colVal rowC7 "month_cos" = Val.cosv (1 / 12) := by
    have h : colVal rowC7 "month_cos"
        = Val.cosv (((1 % 12 : ℕ) : ℚ) / 12) := rfl
    rw [h, hq1]
  have hns : colVal rowC7 "minute_sin" = Val.sinv 0 := by
    have h : colVal rowC7 "minute_sin"
        = Val.sinv (((0 % 60 : ℕ) : ℚ) / 60) := rfl
    rw [h, hq2]
  have hnc : colVal rowC7 "minute_cos" = Val.cosv 0 := by
    have h : colVal rowC7 "minute_cos"
        = Val.cosv (((0 % 60 : ℕ) : ℚ) / 60) := rfl
    rw [h, hq2]
  have hpi : (2 * Real.pi * ((1 / 12 : ℚ) : ℝ)) = Real.pi / 6 := by
    push_cast
    ring
  have hsq1 : Real.sqrt 3 < 1.733 := by
    have h := Real.sqrt_lt_sqrt (by norm_num : (0 : ℝ) ≤ 3)
      (by norm_num : (3 : ℝ) < 1.733 ^ 2)
    rwa [Real.sqrt_sq (by norm_num : (0 : ℝ) ≤ 1.733)] at h
  have hsq2 : (1.731 : ℝ) < Real.sqrt 3 := by
    have h := Real.sqrt_lt_sqrt (by norm_num : (0 : ℝ) ≤ 1.731 ^ 2)
      (by norm_num : (1.731 : ℝ) ^ 2 < 3)
    rwa [Real.sqrt_sq (by norm_num : (0 : ℝ) ≤ 1.731)] at h
  refine ⟨rfl, ?_, ?_, ?_, ?_, ?_, ?_, ?_, ?_⟩
  · norm_num [rowC7, normalizeAnglez, ANGLEZ_MEAN, ANGLEZ_STD, abs_lt]
  · norm_num [rowC7, normalizeEnmo, ENMO_MEAN, ENMO_STD, abs_lt]
  · rw [hhs]
    simp [Val.toReal]
  · rw [hhc]
    simp [Val.toReal]
  · rw [hms]
    show Real.sin (2 * Real.pi * ((1 / 12 : ℚ) : ℝ)) = 1 / 2
    rw [hpi, Real.sin_pi_div_six]
  · rw [hmc]
    show |Real.cos (2 * Real.pi * ((1 / 12 : ℚ) : ℝ)) - 866 / 1000| < 1 / 1000
    rw [hpi, Real.cos_pi_div_six, abs_lt]
    constructor <;> nlinarith [hsq1, hsq2]
  · rw [hns]
    simp [Val.toReal]
  · rw [hnc]
    simp [Val.toReal]

/-- Claim C8: if the timestamp string of any record fails the exact
`YYYY-MM-DDTHH:MM:SS±HHMM` format, the load fails with the parse error
and the whole run aborts: nothing is written and no record is skipped. -/
theorem claim8_parse_failure_aborts (cfg : Cfg) (read : String → List RawRow)
    (fs : FS) (p : String) (hp : sourcePath cfg = some p)
    (hbad : ∃ r ∈ read p, parseTimestamp r.timestamp = none) :
    (runPrepare cfg read fs).1 = Except.error PrepError.parseError
    ∧ (runPrepare cfg read fs).2 = removeDir fs (processedPath cfg) := by
  have he := preprocess_error_of_bad hbad
  simp only [runPrepare, hp, he]
  exact ⟨trivial, trivial⟩

theorem claim8_witness :
    (runPrepare ⟨"train", "d", "p"⟩ (fun _ => [rawBad]) (fun _ => none)).1
        = Except.error PrepError.parseError
    ∧ (runPrepare ⟨"train", "d", "p"⟩ (fun _ => [rawBad]) (fun _ => none)).2
        = removeDir (fun _ => none) (processedPath ⟨"train", "d", "p"⟩) :=
  claim8_parse_failure_aborts ⟨"train", "d", "p"⟩ (fun _ => [rawBad])
    (fun _ => none) ("d" ++ "/" ++ "train" ++ "_series.parquet") rfl
    ⟨rawBad, List.mem_singleton.mpr rfl, rfl⟩

/-- Claim C9: for every row and each of the three periodic features, the
emitted sine/cosine pair squares and sums to 1. -/
theorem claim9_pythagorean (r : Row) :
    (colVal r "hour_sin").toReal ^ 2 + (colVal r "hour_cos").toReal ^ 2 = 1
    ∧ (colVal r "month_sin").toReal ^ 2 + (colVal r "month_cos").toReal ^ 2 = 1
    ∧ (colVal r "minute_sin").toReal ^ 2 + (colVal r "minute_cos").toReal ^ 2
        = 1 := by
  refine ⟨?_, ?_, ?_⟩ <;>
    simp [colVal, featureColumns, to_coord, List.lookup, Val.toReal,
      Real.sin_sq_add_cos_sq]

/-- Claim C10: train and test read `{data_dir}/{phase}_series.parquet`;
dev reads `{processed_dir}/dev_series.parquet` from the processed root
instead of the raw data directory. -/
theorem claim10_source_path (cfg : Cfg) :
    ((cfg.phase = "train" ∨ cfg.phase = "test") →
      sourcePath cfg
        = some (cfg.data_dir ++ "/" ++ cfg.phase ++ "_series.parquet"))
    ∧ (cfg.phase = "dev" →
      sourcePath cfg
        = some (cfg.processed_dir ++ "/" ++ "dev" ++ "_series.parquet")) := by
  constructor
  · intro h
    unfold sourcePath
    rw [if_pos h]
  · intro h
    unfold sourcePath
    rw [h]
    rw [if_neg (by decide), if_pos rfl]

theorem claim10_witness :
    sourcePath ⟨"train", "d", "p"⟩
      = some ("d" ++ "/" ++ "train" ++ "_series.parquet")
    ∧ sourcePath ⟨"dev", "d", "p"⟩
      = some ("p" ++ "/" ++ "dev" ++ "_series.parquet") :=
  ⟨(claim10_source_path ⟨"train", "d", "p"⟩).1 (Or.inl rfl),
   (claim10_source_path ⟨"dev", "d", "p"⟩).2 rfl⟩

end PrepareData
